import Mathlib

/-!
# Practice Plus: the session tracker of `src/main.cpp`

A shallow embedding of the bookkeeping core of the Practice Plus mod: the global
`PracticePlusState`, the bodies of the `PPPlayLayer` hooks that update it, the pause
summary of `PPPauseLayer::customSetup`, and the compound `jumpToBestCheckpoint`.

Modelling conventions.

* C++ `int` is `Int`.  Every `int` of the tracker is a checkpoint index, a checkpoint
  count or a death tally; signed overflow is undefined behaviour and is not modelled.
  The cast `(int)m_checkpointArray->count()` is the count itself: the array holds one
  heap object per checkpoint and stays far below `2^31` entries.
* `float sessionSeconds` is an exact rational (`Rat`).
* `std::unordered_map<int, int>` is an association list `List (Int × Int)`; lookups take
  the first entry of a key, `operator[]` appends a zero entry for a missing key.
* The host engine (`PlayLayer`, the checkpoint array) is not part of the repository.
  The hooks read two things from it, `m_isPracticeMode` and `m_checkpointArray->count()`;
  hook bodies take them as arguments, and `Game` carries a small model of the host for
  the properties that speak about sequences of events.
* Rendering (labels, glow sprites, sounds, settings) does not touch `g_state` and is
  left out.
-/

namespace PracticePlus

/-! ## Data model -/

/-- The map type of `checkpointDeaths`: checkpoint index to death count. -/
abbrev DeathMap := List (Int × Int)

/-- The record `struct PracticePlusState` with its default member initialisers
as the field defaults. -/
structure PracticePlusState where
  checkpointDeaths : DeathMap := []
  bestCheckpointIndex : Int := -1
  sessionSeconds : Rat := 0
  isPractice : Bool := false
  currentCPIndex : Int := -1
deriving DecidableEq, Repr

/-- Lookup `m.find(k)`: the stored count of key `k`, if the key is present. -/
def DeathMap.find : DeathMap → Int → Option Int
  | [], _ => none
  | (k', v) :: rest, k => if k' = k then some v else DeathMap.find rest k

/-- The statement `m[k]++`: `operator[]` inserts a zero entry when the key is absent,
then the entry is incremented. -/
def DeathMap.increment : DeathMap → Int → DeathMap
  | [], k => [(k, 0 + 1)]
  | (k', v) :: rest, k =>
      if k' = k then (k', v + 1) :: rest else (k', v) :: DeathMap.increment rest k

/-- The expression `m.count(idx) ? m[idx] : 0` of `refreshDeathLabel`: the death count
of a checkpoint, zero when it has no entry. -/
def deathsAt (g : PracticePlusState) (idx : Int) : Int :=
  match DeathMap.find g.checkpointDeaths idx with
  | some v => v
  | none => 0

/-! ## Hook bodies of `PPPlayLayer`

Each function is the part of the hook that follows the call of the host's base method.
`m_isPracticeMode` is the host layer's flag and `count` the value of
`(int)m_checkpointArray->count()` at that point. -/

/-- The hook `PPPlayLayer::init`: when the base `PlayLayer::init` fails the hook returns
`false` and leaves `g_state` alone; otherwise `g_state` is replaced by a fresh record
whose `isPractice` is the layer's practice flag. -/
def init (baseInitOk : Bool) (m_isPracticeMode : Bool) (g : PracticePlusState) :
    Bool × PracticePlusState :=
  if !baseInitOk then (false, g)
  else
    let g1 : PracticePlusState := {}
    (true, { g1 with isPractice := m_isPracticeMode })

/-- The scheduled callback `PPPlayLayer::updateTimer`: `g_state.sessionSeconds += dt`. -/
def updateTimer (dt : Rat) (g : PracticePlusState) : PracticePlusState :=
  { g with sessionSeconds := g.sessionSeconds + dt }

/-- The hook `PPPlayLayer::playerDied` after the base call. -/
def playerDied (m_isPracticeMode : Bool) (g : PracticePlusState) : PracticePlusState :=
  if !m_isPracticeMode then g
  else
    let idx := g.currentCPIndex
    if idx ≥ 0 then
      { g with checkpointDeaths := DeathMap.increment g.checkpointDeaths idx }
    else g

/-- The index `newIdx` that `PPPlayLayer::markCheckpoint` computes from the checkpoint
count: `count - 1`, replaced by `0` when negative. -/
def markCheckpointIndex (count : Int) : Int :=
  let newIdx := count - 1
  if newIdx < 0 then 0 else newIdx

/-- The hook `PPPlayLayer::markCheckpoint` after the base call. -/
def markCheckpoint (m_isPracticeMode : Bool) (count : Int) (g : PracticePlusState) :
    PracticePlusState :=
  if !m_isPracticeMode then g
  else
    let newIdx := markCheckpointIndex count
    let g1 := { g with currentCPIndex := newIdx }
    if newIdx > g1.bestCheckpointIndex then { g1 with bestCheckpointIndex := newIdx }
    else g1

/-- The hook `PPPlayLayer::removeCheckpoint` after the base call: the current index
follows the checkpoint count, whatever the mode. -/
def removeCheckpoint (count : Int) (g : PracticePlusState) : PracticePlusState :=
  { g with currentCPIndex := count - 1 }

/-! ## Pause summary of `PPPauseLayer::customSetup` -/

/-- The loop `for (auto& [k, v] : g_state.checkpointDeaths) totalDeaths += v`. -/
def totalDeaths (g : PracticePlusState) : Int :=
  g.checkpointDeaths.foldl (fun acc kv => acc + kv.2) 0

/-- The numbers shown by the summary label. -/
structure PauseSummary where
  sessionSeconds : Rat
  totalDeaths : Int
  bestCPShown : Int
deriving DecidableEq, Repr

/-- The summary part of `PPPauseLayer::customSetup`: nothing outside practice mode,
otherwise the session time, the death total and `bestCheckpointIndex + 1`. -/
def customSetup (g : PracticePlusState) : Option PauseSummary :=
  if !g.isPractice then none
  else
    some { sessionSeconds := g.sessionSeconds,
           totalDeaths := totalDeaths g,
           bestCPShown := g.bestCheckpointIndex + 1 }

/-! ## The host engine and sessions

The host layer is reduced to what the tracker reads from it and asks of it: the practice
flag, the length of the checkpoint array, and the base-method calls the hooks issue. -/

/-- A call of a base method of the host layer, as issued by a hook. -/
inductive HostCall where
  | playerDied
  | markCheckpoint
  | removeCheckpoint
  | resetLevel
deriving DecidableEq, Repr

/-- The tracker together with the host layer it is hooked into: the global `g_state`,
the layer flag `m_isPracticeMode`, the value of `m_checkpointArray->count()`, and the
base-method calls issued so far, oldest first. -/
structure Game where
  g_state : PracticePlusState
  m_isPracticeMode : Bool
  checkpointCount : Nat
  hostCalls : List HostCall
deriving DecidableEq, Repr

/-- Modelled from the spec: the base method `PlayLayer::markCheckpoint` of the host
engine, which is not in the repository; it appends the new checkpoint to the
checkpoint list. -/
def Host.markCheckpoint (w : Game) : Game :=
  { w with checkpointCount := w.checkpointCount + 1,
           hostCalls := w.hostCalls ++ [HostCall.markCheckpoint] }

/-- Modelled from the spec: the base method `PlayLayer::removeCheckpoint` of the host
engine, which is not in the repository; it removes the last checkpoint of the list,
so the list shrinks by one (an empty list stays empty). -/
def Host.removeCheckpoint (w : Game) : Game :=
  { w with checkpointCount := w.checkpointCount - 1,
           hostCalls := w.hostCalls ++ [HostCall.removeCheckpoint] }

/-- Modelled from the spec: the base method `PlayLayer::playerDied` of the host engine,
which is not in the repository; it leaves the checkpoint list as it is. -/
def Host.playerDied (w : Game) : Game :=
  { w with hostCalls := w.hostCalls ++ [HostCall.playerDied] }

/-- Modelled from the spec: the base method `PlayLayer::resetLevel` of the host engine,
which is not in the repository; a level reset to the current checkpoint, which leaves
the checkpoint list as it is. -/
def Host.resetLevel (w : Game) : Game :=
  { w with hostCalls := w.hostCalls ++ [HostCall.resetLevel] }

/-- Session start: the host's `PlayLayer::init` succeeds for a level entered with
practice flag `p`, the checkpoint list is empty, and the hook `init` replaces the
tracker state `prev` of the previous session. -/
def Game.sessionStart (p : Bool) (prev : PracticePlusState) : Game :=
  { g_state := (init true p prev).2, m_isPracticeMode := p, checkpointCount := 0,
    hostCalls := [] }

/-- The whole hook `PPPlayLayer::playerDied`: base call, then the hook body. -/
def Game.playerDied (w : Game) : Game :=
  let w1 := Host.playerDied w
  { w1 with g_state := PracticePlus.playerDied w1.m_isPracticeMode w1.g_state }

/-- The whole hook `PPPlayLayer::markCheckpoint`: base call, then the hook body, which
reads the count of the checkpoint array after the base call. -/
def Game.markCheckpoint (w : Game) : Game :=
  let w1 := Host.markCheckpoint w
  { w1 with g_state :=
      PracticePlus.markCheckpoint w1.m_isPracticeMode (w1.checkpointCount : Int) w1.g_state }

/-- The whole hook `PPPlayLayer::removeCheckpoint`: base call, then the hook body. -/
def Game.removeCheckpoint (w : Game) : Game :=
  let w1 := Host.removeCheckpoint w
  { w1 with g_state := PracticePlus.removeCheckpoint (w1.checkpointCount : Int) w1.g_state }

/-- The override `PPPlayLayer::resetLevel`, which only calls the base method. -/
def Game.resetLevel (w : Game) : Game :=
  Host.resetLevel w

/-- One frame of the scheduler: `init` schedules `updateTimer` only for a layer in
practice mode, so outside practice mode no callback runs. -/
def Game.updateTimer (dt : Rat) (w : Game) : Game :=
  if w.m_isPracticeMode then { w with g_state := PracticePlus.updateTimer dt w.g_state }
  else w

/-- The loop `for (int i = count - 1; i > g_state.bestCheckpointIndex; i--)
this->removeCheckpoint(false);` of `jumpToBestCheckpoint`, with `i` the loop variable.
The loop is run on a budget of iterations; `none` means the budget ran out. -/
def jumpLoop : Nat → Int → Game → Option Game
  | 0, i, w => if i > w.g_state.bestCheckpointIndex then none else some w
  | fuel + 1, i, w =>
      if i > w.g_state.bestCheckpointIndex then jumpLoop fuel (i - 1) (Game.removeCheckpoint w)
      else some w

/-- The method `PPPlayLayer::jumpToBestCheckpoint`.  The loop budget is the number of
checkpoints at entry; `none` would mean that the loop did not finish within it. -/
def Game.jumpToBestCheckpoint (w : Game) : Option Game :=
  if w.g_state.bestCheckpointIndex < 0 then some w
  else
    let count : Int := (w.checkpointCount : Int)
    match jumpLoop w.checkpointCount (count - 1) w with
    | some w1 => some (Game.resetLevel w1)
    | none => none

/-- The loop of the specification, in its words: while the external checkpoint count
exceeds `bestCheckpointIndex + 1`, request removal of the last checkpoint. -/
def specJumpLoop : Nat → Game → Option Game
  | 0, w =>
      if (w.checkpointCount : Int) > w.g_state.bestCheckpointIndex + 1 then none else some w
  | fuel + 1, w =>
      if (w.checkpointCount : Int) > w.g_state.bestCheckpointIndex + 1 then
        specJumpLoop fuel (Game.removeCheckpoint w)
      else some w

/-- The operation `jumpToBestCheckpoint` as the specification words it: a no-op when
`bestCheckpointIndex < 0`, otherwise the removal loop followed by the request of a
level reset. -/
def specJumpToBestCheckpoint (w : Game) : Option Game :=
  if w.g_state.bestCheckpointIndex < 0 then some w
  else
    match specJumpLoop w.checkpointCount w with
    | some w1 => some (Host.resetLevel w1)
    | none => none

/-- The events of a session. -/
inductive Event where
  | checkpointSet
  | checkpointRemove
  | playerDeath
  | tick (dt : Rat)
  | jumpToBest
deriving DecidableEq, Repr

/-- One event, handled by the hook it triggers. -/
def step (w : Game) : Event → Option Game
  | Event.checkpointSet => some (Game.markCheckpoint w)
  | Event.checkpointRemove => some (Game.removeCheckpoint w)
  | Event.playerDeath => some (Game.playerDied w)
  | Event.tick dt => some (Game.updateTimer dt w)
  | Event.jumpToBest => Game.jumpToBestCheckpoint w

/-- A sequence of events, handled in order. -/
def run (w : Game) : List Event → Option Game
  | [] => some w
  | e :: es =>
      match step w e with
      | some w1 => run w1 es
      | none => none

/-- The events of a run, each paired with the state it met. -/
def history (w : Game) : List Event → List (Game × Event)
  | [] => []
  | e :: es =>
      (w, e) :: (match step w e with
                 | some w1 => history w1 es
                 | none => [])

/-- The values `newIdx` computed by the checkpoint-set events of a run, in order: the
hook computes one, from the count after the host added the checkpoint, whenever the
layer is in practice mode. -/
def setIndices (w : Game) (evs : List Event) : List Int :=
  (history w evs).filterMap (fun p =>
    match p.2 with
    | Event.checkpointSet =>
        if p.1.m_isPracticeMode then
          some (markCheckpointIndex ((Host.markCheckpoint p.1).checkpointCount : Int))
        else none
    | _ => none)

/-- The largest element of a list of indices, `-1` for the empty list. -/
def maxIndex (l : List Int) : Int :=
  l.foldl max (-1)

/-- The number of player-death events of a run that met a state satisfying `q`. -/
def deathsWhile (q : Int → Bool) (w : Game) (evs : List Event) : Nat :=
  (history w evs).countP (fun p =>
    match p.2 with
    | Event.playerDeath => q p.1.g_state.currentCPIndex
    | _ => false)

/-! ## Lemmas on the death map -/

theorem DeathMap.find_increment_self (m : DeathMap) (k : Int) :
    DeathMap.find (DeathMap.increment m k) k = some ((DeathMap.find m k).getD 0 + 1) := by
  induction m with
  | nil => simp [DeathMap.increment, DeathMap.find]
  | cons hd tl ih =>
    obtain ⟨k', v⟩ := hd
    by_cases h : k' = k
    · simp [DeathMap.increment, DeathMap.find, h]
    · simp [DeathMap.increment, DeathMap.find, h, ih]

theorem DeathMap.find_increment_other (m : DeathMap) (k j : Int) (hj : j ≠ k) :
    DeathMap.find (DeathMap.increment m k) j = DeathMap.find m j := by
  induction m with
  | nil =>
    have : ¬ k = j := fun h => hj h.symm
    simp [DeathMap.increment, DeathMap.find, this]
  | cons hd tl ih =>
    obtain ⟨k', v⟩ := hd
    by_cases h : k' = k
    · subst h
      have : ¬ k' = j := fun h => hj h.symm
      simp [DeathMap.increment, DeathMap.find, this]
    · by_cases h2 : k' = j
      · subst h2
        simp [DeathMap.increment, DeathMap.find, h]
      · simp [DeathMap.increment, DeathMap.find, h, h2, ih]

theorem DeathMap.increment_ne (m : DeathMap) (k : Int) : DeathMap.increment m k ≠ m := by
  intro h
  have h1 := DeathMap.find_increment_self m k
  rw [h] at h1
  cases hf : DeathMap.find m k with
  | none => rw [hf] at h1; simp at h1
  | some v =>
    rw [hf] at h1
    simp at h1

/-! ## The hook bodies -/

/-- C1: the checkpoint-set handler `markCheckpoint`, for every state `s` and every
checkpoint count `n`: outside practice mode the state is unchanged; in practice mode,
with `newIdx = max (n - 1) 0`, the result has `currentCPIndex = newIdx` and
`bestCheckpointIndex = max s.bestCheckpointIndex newIdx`, and `checkpointDeaths`,
`sessionSeconds` and `isPractice` are unchanged. -/
theorem markCheckpoint_spec (s : PracticePlusState) (n : Int) :
    markCheckpoint false n s = s ∧
    (markCheckpoint true n s).currentCPIndex = max (n - 1) 0 ∧
    (markCheckpoint true n s).bestCheckpointIndex
      = max s.bestCheckpointIndex (max (n - 1) 0) ∧
    (markCheckpoint true n s).checkpointDeaths = s.checkpointDeaths ∧
    (markCheckpoint true n s).sessionSeconds = s.sessionSeconds ∧
    (markCheckpoint true n s).isPractice = s.isPractice := by
  have hidx : markCheckpointIndex n = max (n - 1) 0 := by
    unfold markCheckpointIndex
    by_cases h : n - 1 < 0
    · simp only [h, if_true]; omega
    · simp only [h, if_false]; omega
  refine ⟨by simp [markCheckpoint], ?_⟩
  by_cases hb : markCheckpointIndex n > s.bestCheckpointIndex
  · have hdef : markCheckpoint true n s
        = { s with currentCPIndex := markCheckpointIndex n,
                   bestCheckpointIndex := markCheckpointIndex n } := by
      simp [markCheckpoint, hb]
    rw [hdef]
    rw [hidx] at hb ⊢
    refine ⟨rfl, ?_, rfl, rfl, rfl⟩
    show max (n - 1) 0 = max s.bestCheckpointIndex (max (n - 1) 0)
    omega
  · have hdef : markCheckpoint true n s
        = { s with currentCPIndex := markCheckpointIndex n } := by
      simp only [markCheckpoint, Bool.not_true, Bool.false_eq_true, if_false]
      rw [if_neg hb]
    rw [hdef]
    rw [hidx] at hb ⊢
    refine ⟨rfl, ?_, rfl, rfl, rfl⟩
    show s.bestCheckpointIndex = max s.bestCheckpointIndex (max (n - 1) 0)
    omega

/-- C2: the player-death handler `playerDied`, for every state `s`: it changes the state
exactly when the layer is in practice mode and `s.currentCPIndex >= 0`; in that case the
entry of `s.currentCPIndex` becomes its previous count (0 if absent) plus one and every
other key keeps its entry; `bestCheckpointIndex`, `currentCPIndex`, `sessionSeconds` and
`isPractice` are unchanged; and after a checkpoint removal that leaves the count at 0 a
death changes nothing. -/
theorem playerDied_spec (p : Bool) (s : PracticePlusState) :
    (playerDied p s ≠ s ↔ (p = true ∧ 0 ≤ s.currentCPIndex)) ∧
    ((p = true ∧ 0 ≤ s.currentCPIndex) →
      DeathMap.find (playerDied p s).checkpointDeaths s.currentCPIndex
        = some ((DeathMap.find s.checkpointDeaths s.currentCPIndex).getD 0 + 1) ∧
      deathsAt (playerDied p s) s.currentCPIndex = deathsAt s s.currentCPIndex + 1 ∧
      ∀ k : Int, k ≠ s.currentCPIndex →
        DeathMap.find (playerDied p s).checkpointDeaths k
          = DeathMap.find s.checkpointDeaths k) ∧
    (playerDied p s).bestCheckpointIndex = s.bestCheckpointIndex ∧
    (playerDied p s).currentCPIndex = s.currentCPIndex ∧
    (playerDied p s).sessionSeconds = s.sessionSeconds ∧
    (playerDied p s).isPractice = s.isPractice ∧
    (removeCheckpoint 0 s).currentCPIndex = -1 ∧
    playerDied p (removeCheckpoint 0 s) = removeCheckpoint 0 s := by
  have hlast : playerDied p (removeCheckpoint 0 s) = removeCheckpoint 0 s := by
    cases p <;> simp [playerDied, removeCheckpoint]
  by_cases hc : p = true ∧ 0 ≤ s.currentCPIndex
  · obtain ⟨hp, hi⟩ := hc
    subst hp
    have hdef : playerDied true s
        = { s with checkpointDeaths :=
              DeathMap.increment s.checkpointDeaths s.currentCPIndex } := by
      simp [playerDied, hi]
    have hfind := DeathMap.find_increment_self s.checkpointDeaths s.currentCPIndex
    refine ⟨?_, ?_, ?_, ?_, ?_, ?_, by simp [removeCheckpoint], hlast⟩
    · constructor
      · intro _; exact ⟨rfl, hi⟩
      · intro _ h
        rw [hdef] at h
        have h2 := congrArg PracticePlusState.checkpointDeaths h
        exact DeathMap.increment_ne _ _ h2
    · intro _
      rw [hdef]
      refine ⟨hfind, ?_, ?_⟩
      · simp only [deathsAt, hfind]
        cases DeathMap.find s.checkpointDeaths s.currentCPIndex <;> simp
      · intro k hk
        exact DeathMap.find_increment_other _ _ _ hk
    all_goals rw [hdef]
  · have hdef : playerDied p s = s := by
      cases p
      · simp [playerDied]
      · have : ¬ 0 ≤ s.currentCPIndex := fun h => hc ⟨rfl, h⟩
        simp [playerDied, this]
    refine ⟨?_, fun h => absurd h hc, ?_, ?_, ?_, ?_, by simp [removeCheckpoint], hlast⟩
    · constructor
      · intro h; exact absurd hdef h
      · intro h; exact absurd h hc
    all_goals rw [hdef]

/-- Witness of `playerDied_spec`: a death at checkpoint 0, which already has two deaths,
in practice mode. -/
theorem playerDied_spec_witness :
    DeathMap.find
        (playerDied true { checkpointDeaths := [(0, 2)], currentCPIndex := 0 }).checkpointDeaths
        0 = some (2 + 1) :=
  ((playerDied_spec true { checkpointDeaths := [(0, 2)], currentCPIndex := 0 }).2.1
    ⟨rfl, by decide⟩).1

/-- C3: the checkpoint-remove handler `removeCheckpoint`, for every state `s` and every
checkpoint count `n` left after the removal: `currentCPIndex` becomes `n - 1` (so `-1`
for `n = 0`) and `bestCheckpointIndex`, `checkpointDeaths`, `sessionSeconds` and
`isPractice` stay as they were; the whole hook does this for a layer in practice mode
or not. -/
theorem removeCheckpoint_spec (s : PracticePlusState) (n : Int) :
    (removeCheckpoint n s).currentCPIndex = n - 1 ∧
    (removeCheckpoint 0 s).currentCPIndex = -1 ∧
    (removeCheckpoint n s).bestCheckpointIndex = s.bestCheckpointIndex ∧
    (removeCheckpoint n s).checkpointDeaths = s.checkpointDeaths ∧
    (removeCheckpoint n s).sessionSeconds = s.sessionSeconds ∧
    (removeCheckpoint n s).isPractice = s.isPractice ∧
    (∀ w : Game, (Game.removeCheckpoint w).g_state
        = removeCheckpoint ((Game.removeCheckpoint w).checkpointCount : Int) w.g_state) := by
  refine ⟨rfl, by simp [removeCheckpoint], rfl, rfl, rfl, rfl, ?_⟩
  intro w
  rfl

/-- C4: session start, for every prior state `s` and every practice flag `p`: when the
base `PlayLayer::init` succeeds the hook `init` returns `true` and leaves the state with
`checkpointDeaths` empty, `bestCheckpointIndex = -1`, `currentCPIndex = -1`,
`sessionSeconds = 0` and `isPractice = p`, whatever `s` was. -/
theorem init_spec (s : PracticePlusState) (p : Bool) :
    init true p s
      = (true, { checkpointDeaths := [], bestCheckpointIndex := -1, sessionSeconds := 0,
                 isPractice := p, currentCPIndex := -1 }) := by
  simp [init]

/-- C5, as the code has it: the tick handler `updateTimer` adds `dt` to `sessionSeconds`
for every `dt`, negative or not, and changes nothing else; over a sequence of ticks
whose deltas are all non-negative `sessionSeconds` never decreases. -/
theorem updateTimer_spec (s : PracticePlusState) (dts : List Rat)
    (hdts : ∀ d ∈ dts, 0 ≤ d) :
    (∀ dt : Rat, updateTimer dt s = { s with sessionSeconds := s.sessionSeconds + dt }) ∧
    s.sessionSeconds ≤ (dts.foldl (fun g d => updateTimer d g) s).sessionSeconds := by
  refine ⟨fun dt => rfl, ?_⟩
  induction dts generalizing s with
  | nil => simp
  | cons d ds ih =>
    have hd : 0 ≤ d := hdts d (List.mem_cons_self d ds)
    have hrest : ∀ x ∈ ds, 0 ≤ x := fun x hx => hdts x (List.mem_cons_of_mem d hx)
    have h1 := ih (updateTimer d s) hrest
    simp only [List.foldl_cons]
    have h2 : s.sessionSeconds ≤ (updateTimer d s).sessionSeconds := by
      show s.sessionSeconds ≤ s.sessionSeconds + d
      linarith
    exact le_trans h2 h1

/-- Witness of `updateTimer_spec`: two ticks of one and two seconds from a fresh
state. -/
theorem updateTimer_spec_witness :
    (∀ d ∈ [(1 : Rat), 2], 0 ≤ d) ∧
    (∀ dt : Rat, updateTimer dt {} = { sessionSeconds := (0 : Rat) + dt }) ∧
    (0 : Rat) ≤ ([(1 : Rat), 2].foldl (fun g d => updateTimer d g) {}).sessionSeconds :=
  ⟨by simp, updateTimer_spec {} [1, 2] (by simp)⟩

/-- C5, counterexample: a tick of `-5` seconds on a state with ten seconds on the timer
leaves five seconds, not ten; the timer went down. -/
theorem updateTimer_negative_counterexample :
    (updateTimer (-5) { sessionSeconds := 10 }).sessionSeconds = 5 ∧
    (updateTimer (-5) { sessionSeconds := 10 }).sessionSeconds
      ≠ ({ sessionSeconds := 10 } : PracticePlusState).sessionSeconds ∧
    (updateTimer (-5) { sessionSeconds := 10 }).sessionSeconds
      < ({ sessionSeconds := 10 } : PracticePlusState).sessionSeconds := by
  simp only [updateTimer]
  norm_num

/-! ## Jump to the best checkpoint -/

theorem jumpLoop_eq_specJumpLoop (fuel : Nat) :
    ∀ (i : Int) (w : Game), i = (w.checkpointCount : Int) - 1 →
      0 ≤ w.g_state.bestCheckpointIndex →
      jumpLoop fuel i w = specJumpLoop fuel w := by
  induction fuel with
  | zero =>
    intro i w hi _
    have hc : (i > w.g_state.bestCheckpointIndex)
        ↔ ((w.checkpointCount : Int) > w.g_state.bestCheckpointIndex + 1) := by
      constructor <;> intro h <;> omega
    simp only [jumpLoop, specJumpLoop, hc]
  | succ fuel ih =>
    intro i w hi hb
    have hc : (i > w.g_state.bestCheckpointIndex)
        ↔ ((w.checkpointCount : Int) > w.g_state.bestCheckpointIndex + 1) := by
      constructor <;> intro h <;> omega
    by_cases h : i > w.g_state.bestCheckpointIndex
    · have h2 := hc.mp h
      simp only [jumpLoop, specJumpLoop, h, h2, if_true]
      apply ih
      · show i - 1 = ((w.checkpointCount - 1 : Nat) : Int) - 1
        omega
      · exact hb
    · have h2 : ¬ ((w.checkpointCount : Int) > w.g_state.bestCheckpointIndex + 1) :=
        fun h3 => h (hc.mpr h3)
      simp only [jumpLoop, specJumpLoop, h, h2, if_false]

/-- The removal loop finishes within its budget; it issues one removal for every
checkpoint above the best index and touches `currentCPIndex` only. -/
theorem jumpLoop_result (fuel : Nat) :
    ∀ (i : Int) (w : Game), i = (w.checkpointCount : Int) - 1 →
      0 ≤ w.g_state.bestCheckpointIndex →
      (w.checkpointCount : Int) - (w.g_state.bestCheckpointIndex + 1) ≤ fuel →
      ∃ w1, jumpLoop fuel i w = some w1 ∧
        w1.hostCalls = w.hostCalls ++ List.replicate
          ((w.checkpointCount : Int) - (w.g_state.bestCheckpointIndex + 1)).toNat
          HostCall.removeCheckpoint ∧
        (w1.checkpointCount : Int)
          = min (w.checkpointCount : Int) (w.g_state.bestCheckpointIndex + 1) ∧
        w1.m_isPracticeMode = w.m_isPracticeMode ∧
        w1.g_state.bestCheckpointIndex = w.g_state.bestCheckpointIndex ∧
        w1.g_state.checkpointDeaths = w.g_state.checkpointDeaths ∧
        w1.g_state.sessionSeconds = w.g_state.sessionSeconds ∧
        w1.g_state.isPractice = w.g_state.isPractice ∧
        (w.g_state.currentCPIndex = (w.checkpointCount : Int) - 1 →
          w1.g_state.currentCPIndex = (w1.checkpointCount : Int) - 1) := by
  induction fuel with
  | zero =>
    intro i w hi hb hf
    have h : ¬ i > w.g_state.bestCheckpointIndex := by omega
    have hk : ((w.checkpointCount : Int) - (w.g_state.bestCheckpointIndex + 1)).toNat = 0 := by
      omega
    refine ⟨w, by simp [jumpLoop, h], by simp [hk], by omega, rfl, rfl, rfl, rfl, rfl,
      fun h => h⟩
  | succ fuel ih =>
    intro i w hi hb hf
    by_cases h : i > w.g_state.bestCheckpointIndex
    · have hcount : (Game.removeCheckpoint w).checkpointCount = w.checkpointCount - 1 := rfl
      have hbest : (Game.removeCheckpoint w).g_state.bestCheckpointIndex
          = w.g_state.bestCheckpointIndex := rfl
      have hcalls : (Game.removeCheckpoint w).hostCalls
          = w.hostCalls ++ [HostCall.removeCheckpoint] := rfl
      have hcur : (Game.removeCheckpoint w).g_state.currentCPIndex
          = ((Game.removeCheckpoint w).checkpointCount : Int) - 1 := rfl
      obtain ⟨w1, hrun, hlog, hcnt, hp, hbst, hd, hs, hpr, hinv⟩ :=
        ih (i - 1) (Game.removeCheckpoint w) (by rw [hcount]; omega) (by rw [hbest]; exact hb)
          (by rw [hcount, hbest]; omega)
      refine ⟨w1, by simp [jumpLoop, h, hrun], ?_, ?_, hp, by rw [hbst, hbest], hd, hs, hpr,
        ?_⟩
      · rw [hlog, hcalls, hcount, hbest, List.append_assoc]
        congr 1
        have hk : ((w.checkpointCount : Int) - (w.g_state.bestCheckpointIndex + 1)).toNat
            = (((w.checkpointCount - 1 : Nat) : Int)
                - (w.g_state.bestCheckpointIndex + 1)).toNat + 1 := by omega
        rw [hk, List.replicate_succ]
        rfl
      · rw [hcnt, hcount, hbest]; omega
      · intro _
        exact hinv hcur
    · have hk : ((w.checkpointCount : Int) - (w.g_state.bestCheckpointIndex + 1)).toNat = 0 := by
        omega
      refine ⟨w, by simp [jumpLoop, h], by simp [hk], by omega, rfl, rfl, rfl, rfl, rfl,
        fun h => h⟩

/-- The jump always returns, and the tracker state it leaves differs from the one it
met in `currentCPIndex` at most. -/
theorem jumpToBestCheckpoint_total (w : Game) :
    ∃ w1, Game.jumpToBestCheckpoint w = some w1 ∧
      w1.m_isPracticeMode = w.m_isPracticeMode ∧
      w1.g_state.bestCheckpointIndex = w.g_state.bestCheckpointIndex ∧
      w1.g_state.checkpointDeaths = w.g_state.checkpointDeaths ∧
      w1.g_state.sessionSeconds = w.g_state.sessionSeconds ∧
      w1.g_state.isPractice = w.g_state.isPractice ∧
      (w.g_state.currentCPIndex = (w.checkpointCount : Int) - 1 →
        w1.g_state.currentCPIndex = (w1.checkpointCount : Int) - 1) := by
  by_cases hb : w.g_state.bestCheckpointIndex < 0
  · exact ⟨w, by simp [Game.jumpToBestCheckpoint, hb], rfl, rfl, rfl, rfl, rfl, fun h => h⟩
  · obtain ⟨w1, hrun, _, _, hp, hbst, hd, hs, hpr, hinv⟩ :=
      jumpLoop_result w.checkpointCount ((w.checkpointCount : Int) - 1) w rfl (by omega)
        (by omega)
    exact ⟨Game.resetLevel w1, by simp [Game.jumpToBestCheckpoint, hb, hrun],
      hp, hbst, hd, hs, hpr, hinv⟩

/-- C6: `jumpToBestCheckpoint`, for every tracker state and every external checkpoint
count: it does what the loop of the specification does; with `bestCheckpointIndex < 0`
it issues no removal request and no level reset; otherwise it issues exactly
`max 0 (c - (bestCheckpointIndex + 1))` removal requests followed by exactly one level
reset, leaves the external count at `min c (bestCheckpointIndex + 1)` and leaves
`bestCheckpointIndex` as it was. -/
theorem jumpToBestCheckpoint_spec (w : Game) :
    Game.jumpToBestCheckpoint w = specJumpToBestCheckpoint w ∧
    (w.g_state.bestCheckpointIndex < 0 → Game.jumpToBestCheckpoint w = some w) ∧
    (0 ≤ w.g_state.bestCheckpointIndex →
      ∃ w1, Game.jumpToBestCheckpoint w = some w1 ∧
        w1.hostCalls = w.hostCalls ++
          List.replicate
            (max 0 ((w.checkpointCount : Int) - (w.g_state.bestCheckpointIndex + 1))).toNat
            HostCall.removeCheckpoint ++ [HostCall.resetLevel] ∧
        (w1.checkpointCount : Int)
          = min (w.checkpointCount : Int) (w.g_state.bestCheckpointIndex + 1) ∧
        w1.g_state.bestCheckpointIndex = w.g_state.bestCheckpointIndex) := by
  refine ⟨?_, ?_, ?_⟩
  · by_cases hb : w.g_state.bestCheckpointIndex < 0
    · simp [Game.jumpToBestCheckpoint, specJumpToBestCheckpoint, hb]
    · simp only [Game.jumpToBestCheckpoint, specJumpToBestCheckpoint, hb, if_false]
      rw [jumpLoop_eq_specJumpLoop w.checkpointCount _ w rfl (by omega)]
      rfl
  · intro hb
    simp [Game.jumpToBestCheckpoint, hb]
  · intro hb
    have hnb : ¬ w.g_state.bestCheckpointIndex < 0 := by omega
    obtain ⟨w1, hrun, hlog, hcnt, _, hbst, _⟩ :=
      jumpLoop_result w.checkpointCount ((w.checkpointCount : Int) - 1) w rfl hb (by omega)
    refine ⟨Game.resetLevel w1, by simp [Game.jumpToBestCheckpoint, hnb, hrun], ?_, hcnt,
      hbst⟩
    have hk : (max 0 ((w.checkpointCount : Int) - (w.g_state.bestCheckpointIndex + 1))).toNat
        = ((w.checkpointCount : Int) - (w.g_state.bestCheckpointIndex + 1)).toNat := by
      omega
    rw [hk]
    show w1.hostCalls ++ [HostCall.resetLevel] = _
    rw [hlog]

/-- Witness of `jumpToBestCheckpoint_spec`: four checkpoints in the list and a best
index of 1, so two removals and one reset. -/
theorem jumpToBestCheckpoint_spec_witness :
    ∃ w1, Game.jumpToBestCheckpoint
        { g_state := { bestCheckpointIndex := 1, currentCPIndex := 3 },
          m_isPracticeMode := true, checkpointCount := 4, hostCalls := [] } = some w1 ∧
      w1.hostCalls
        = [HostCall.removeCheckpoint, HostCall.removeCheckpoint, HostCall.resetLevel] ∧
      (w1.checkpointCount : Int) = 2 ∧
      w1.g_state.bestCheckpointIndex = 1 :=
  (jumpToBestCheckpoint_spec
    { g_state := { bestCheckpointIndex := 1, currentCPIndex := 3 },
      m_isPracticeMode := true, checkpointCount := 4, hostCalls := [] }).2.2 (by decide)

/-! ## Sessions: one event -/

theorem markCheckpointIndex_eq_max (n : Int) : markCheckpointIndex n = max (n - 1) 0 := by
  unfold markCheckpointIndex
  by_cases h : n - 1 < 0
  · simp only [h, if_true]; omega
  · simp only [h, if_false]; omega

theorem markCheckpoint_practice (n : Int) (g : PracticePlusState) :
    markCheckpoint true n g
      = { g with currentCPIndex := markCheckpointIndex n,
                 bestCheckpointIndex := max g.bestCheckpointIndex (markCheckpointIndex n) } := by
  by_cases hb : markCheckpointIndex n > g.bestCheckpointIndex
  · have hm : max g.bestCheckpointIndex (markCheckpointIndex n) = markCheckpointIndex n := by
      omega
    rw [hm]
    simp [markCheckpoint, hb]
  · have hm : max g.bestCheckpointIndex (markCheckpointIndex n) = g.bestCheckpointIndex := by
      omega
    rw [hm]
    simp only [markCheckpoint, Bool.not_true, Bool.false_eq_true, if_false]
    rw [if_neg hb]

theorem totalDeaths_eq_sum (g : PracticePlusState) :
    totalDeaths g = (g.checkpointDeaths.map Prod.snd).sum := by
  have key : ∀ (m : DeathMap) (a : Int),
      m.foldl (fun acc kv => acc + kv.2) a = a + (m.map Prod.snd).sum := by
    intro m
    induction m with
    | nil => intro a; simp
    | cons hd tl ih =>
      intro a
      simp only [List.foldl_cons, List.map_cons, List.sum_cons]
      rw [ih]
      omega
  unfold totalDeaths
  rw [key]
  simp

theorem DeathMap.sum_increment (m : DeathMap) (k : Int) :
    ((DeathMap.increment m k).map Prod.snd).sum = (m.map Prod.snd).sum + 1 := by
  induction m with
  | nil => simp [DeathMap.increment]
  | cons hd tl ih =>
    obtain ⟨k', v⟩ := hd
    by_cases h : k' = k
    · simp [DeathMap.increment, h]; omega
    · simp [DeathMap.increment, h, ih]; omega

/-- What a death does to the tracker of a layer in practice mode. -/
theorem playerDied_practice (g : PracticePlusState) :
    (playerDied true g).bestCheckpointIndex = g.bestCheckpointIndex ∧
    (playerDied true g).currentCPIndex = g.currentCPIndex ∧
    (playerDied true g).isPractice = g.isPractice ∧
    totalDeaths (playerDied true g)
      = totalDeaths g + (if 0 ≤ g.currentCPIndex then 1 else 0) ∧
    ∀ k : Int, deathsAt (playerDied true g) k
      = deathsAt g k + (if g.currentCPIndex = k ∧ 0 ≤ g.currentCPIndex then 1 else 0) := by
  by_cases hi : 0 ≤ g.currentCPIndex
  · have hdef : playerDied true g
        = { g with checkpointDeaths :=
              DeathMap.increment g.checkpointDeaths g.currentCPIndex } := by
      simp [playerDied, hi]
    rw [hdef]
    refine ⟨rfl, rfl, rfl, ?_, ?_⟩
    · rw [totalDeaths_eq_sum, totalDeaths_eq_sum]
      simp only [hi, if_true]
      exact DeathMap.sum_increment _ _
    · intro k
      by_cases hk : g.currentCPIndex = k
      · subst hk
        simp only [deathsAt, DeathMap.find_increment_self, hi, and_self, if_true]
        cases DeathMap.find g.checkpointDeaths g.currentCPIndex <;> simp
      · have hk2 : k ≠ g.currentCPIndex := fun h => hk h.symm
        simp only [deathsAt, DeathMap.find_increment_other _ _ _ hk2, hk, false_and, if_false]
        simp
  · have hdef : playerDied true g = g := by
      simp [playerDied, hi]
    rw [hdef]
    refine ⟨rfl, rfl, rfl, by simp [hi], ?_⟩
    intro k
    simp [hi]

/-- The contribution of one event to the list of computed `newIdx` values. -/
theorem setIndices_cons (w w1 : Game) (e : Event) (es : List Event)
    (h : step w e = some w1) :
    setIndices w (e :: es)
      = (if e = Event.checkpointSet ∧ w.m_isPracticeMode = true then
          [markCheckpointIndex ((w.checkpointCount : Int) + 1)]
        else []) ++ setIndices w1 es := by
  cases e <;> simp only [setIndices, history, h, List.filterMap_cons]
  · by_cases hp : w.m_isPracticeMode = true
    · simp [hp, Host.markCheckpoint]
    · simp [hp]
  all_goals simp

/-- The contribution of one event to a count of deaths. -/
theorem deathsWhile_cons (q : Int → Bool) (w w1 : Game) (e : Event) (es : List Event)
    (h : step w e = some w1) :
    deathsWhile q w (e :: es)
      = (if e = Event.playerDeath ∧ q w.g_state.currentCPIndex = true then 1 else 0)
        + deathsWhile q w1 es := by
  cases e <;> simp only [deathsWhile, history, h, List.countP_cons] <;> simp
  omega

/-- One event in a practice-mode session: the event is handled, the mode stays, and
the tracker moves as the hooks say. -/
theorem step_practice (w : Game) (e : Event) (hp : w.m_isPracticeMode = true) :
    ∃ w1, step w e = some w1 ∧
      w1.m_isPracticeMode = true ∧
      w1.g_state.isPractice = w.g_state.isPractice ∧
      w1.g_state.bestCheckpointIndex
        = (if e = Event.checkpointSet then
            max w.g_state.bestCheckpointIndex
              (markCheckpointIndex ((w.checkpointCount : Int) + 1))
          else w.g_state.bestCheckpointIndex) ∧
      totalDeaths w1.g_state
        = totalDeaths w.g_state
          + (if e = Event.playerDeath ∧ 0 ≤ w.g_state.currentCPIndex then 1 else 0) ∧
      (∀ k : Int, deathsAt w1.g_state k
        = deathsAt w.g_state k
          + (if e = Event.playerDeath ∧ (w.g_state.currentCPIndex = k
                ∧ 0 ≤ w.g_state.currentCPIndex) then 1 else 0)) ∧
      (w.g_state.currentCPIndex = (w.checkpointCount : Int) - 1 →
        w1.g_state.currentCPIndex = (w1.checkpointCount : Int) - 1) := by
  cases e with
  | checkpointSet =>
    have hg : (Game.markCheckpoint w).g_state
        = { w.g_state with
              currentCPIndex := markCheckpointIndex ((w.checkpointCount : Int) + 1),
              bestCheckpointIndex := max w.g_state.bestCheckpointIndex
                (markCheckpointIndex ((w.checkpointCount : Int) + 1)) } := by
      simp only [Game.markCheckpoint, Host.markCheckpoint, hp, markCheckpoint_practice]
      push_cast
      rfl
    have hcnt : (Game.markCheckpoint w).checkpointCount = w.checkpointCount + 1 := rfl
    refine ⟨Game.markCheckpoint w, rfl, hp, ?_, ?_, ?_, ?_, ?_⟩
    · rw [hg]
    · rw [hg]; simp
    · rw [hg]; simp [totalDeaths]
    · intro k; rw [hg]; simp [deathsAt]
    · intro _
      rw [hg, hcnt, markCheckpointIndex_eq_max]
      push_cast
      show max ((w.checkpointCount : Int) + 1 - 1) 0 = (w.checkpointCount : Int) + 1 - 1
      omega
  | checkpointRemove =>
    have hg : (Game.removeCheckpoint w).g_state
        = { w.g_state with
              currentCPIndex := ((Game.removeCheckpoint w).checkpointCount : Int) - 1 } := rfl
    refine ⟨Game.removeCheckpoint w, rfl, hp, ?_, ?_, ?_, ?_, ?_⟩
    · rw [hg]
    · rw [hg]; simp
    · rw [hg]; simp [totalDeaths]
    · intro k; rw [hg]; simp [deathsAt]
    · intro _; rw [hg]
  | playerDeath =>
    obtain ⟨hb, hc, hi, ht, hk⟩ := playerDied_practice w.g_state
    have hg : (Game.playerDied w).g_state = playerDied true w.g_state := by
      simp only [Game.playerDied, Host.playerDied, hp]
    have hcnt : (Game.playerDied w).checkpointCount = w.checkpointCount := rfl
    refine ⟨Game.playerDied w, rfl, hp, ?_, ?_, ?_, ?_, ?_⟩
    · rw [hg, hi]
    · rw [hg, hb]; simp
    · rw [hg, ht]; simp
    · intro k; rw [hg, hk k]; simp
    · intro h; rw [hg, hc, hcnt]; exact h
  | tick dt =>
    have hg : (Game.updateTimer dt w).g_state
        = { w.g_state with sessionSeconds := w.g_state.sessionSeconds + dt } := by
      simp only [Game.updateTimer, hp, if_true, updateTimer]
    have hcnt : (Game.updateTimer dt w).checkpointCount = w.checkpointCount := by
      simp only [Game.updateTimer, hp, if_true]
    have hmode : (Game.updateTimer dt w).m_isPracticeMode = true := by
      simp only [Game.updateTimer, hp, if_true]
    refine ⟨Game.updateTimer dt w, rfl, hmode, ?_, ?_, ?_, ?_, ?_⟩
    · rw [hg]
    · rw [hg]; simp
    · rw [hg]; simp [totalDeaths]
    · intro k; rw [hg]; simp [deathsAt]
    · intro h; rw [hg, hcnt]; exact h
  | jumpToBest =>
    obtain ⟨w1, hrun, hp1, hbst, hd, hs, hpr, hinv⟩ := jumpToBestCheckpoint_total w
    refine ⟨w1, hrun, by rw [hp1]; exact hp, hpr, by rw [hbst]; simp, ?_, ?_, hinv⟩
    · simp [totalDeaths, hd]
    · intro k; simp [deathsAt, hd]

/-! ## Sessions: sequences of events -/

/-- A practice-mode session handles every sequence of events, and its tracker state is
determined by the events met on the way. -/
theorem run_practice (evs : List Event) :
    ∀ w : Game, w.m_isPracticeMode = true →
      ∃ w1, run w evs = some w1 ∧
        w1.m_isPracticeMode = true ∧
        w1.g_state.isPractice = w.g_state.isPractice ∧
        w1.g_state.bestCheckpointIndex
          = (setIndices w evs).foldl max w.g_state.bestCheckpointIndex ∧
        totalDeaths w1.g_state
          = totalDeaths w.g_state + deathsWhile (fun c => decide (0 ≤ c)) w evs ∧
        (∀ k : Int, deathsAt w1.g_state k
          = deathsAt w.g_state k + deathsWhile (fun c => decide (c = k ∧ 0 ≤ c)) w evs) ∧
        (w.g_state.currentCPIndex = (w.checkpointCount : Int) - 1 →
          w1.g_state.currentCPIndex = (w1.checkpointCount : Int) - 1) := by
  induction evs with
  | nil =>
    intro w hp
    exact ⟨w, rfl, hp, rfl, rfl, by simp [deathsWhile, history],
      fun k => by simp [deathsWhile, history], fun h => h⟩
  | cons e es ih =>
    intro w hp
    obtain ⟨w1, hstep, hp1, hpr1, hb1, ht1, hk1, hinv1⟩ := step_practice w e hp
    obtain ⟨w2, hrun, hp2, hpr2, hb2, ht2, hk2, hinv2⟩ := ih w1 hp1
    refine ⟨w2, by simp [run, hstep, hrun], hp2, by rw [hpr2, hpr1], ?_, ?_, ?_,
      fun h => hinv2 (hinv1 h)⟩
    · rw [hb2, hb1, setIndices_cons w w1 e es hstep, List.foldl_append]
      by_cases hc : e = Event.checkpointSet
      · simp [hc, hp]
      · simp [hc]
    · rw [ht2, ht1, deathsWhile_cons _ w w1 e es hstep]
      by_cases hc : e = Event.playerDeath ∧ 0 ≤ w.g_state.currentCPIndex
      · simp [hc]; omega
      · simp [hc]
    · intro k
      rw [hk2, hk1, deathsWhile_cons _ w w1 e es hstep]
      by_cases hc : e = Event.playerDeath
          ∧ (w.g_state.currentCPIndex = k ∧ 0 ≤ w.g_state.currentCPIndex)
      · simp [hc]; omega
      · simp [hc]

/-- C7, the code at the failing input: in a practice session two checkpoints are set
and the second is undone; the jump issues no removal, only the level reset, and leaves
`currentCPIndex = 0` and one checkpoint while `bestCheckpointIndex = 1`. -/
theorem jumpToBestCheckpoint_after_undo :
    (run (Game.sessionStart true {})
        [Event.checkpointSet, Event.checkpointSet, Event.checkpointRemove,
         Event.jumpToBest]).map
      (fun w => (w.g_state.currentCPIndex, w.g_state.bestCheckpointIndex,
                 w.checkpointCount, w.hostCalls))
      = some (0, 1, 1,
          [HostCall.markCheckpoint, HostCall.markCheckpoint, HostCall.removeCheckpoint,
           HostCall.resetLevel]) := by
  decide

/-- C8: after a practice-mode session start and any sequence of checkpoint-set,
checkpoint-remove, player-death, tick and jump-to-best events, all events are handled,
`bestCheckpointIndex` is the largest `newIdx` computed by a checkpoint-set so far
(`-1` when there was none), and no further event decreases it. -/
theorem bestCheckpointIndex_monotone_max (prev : PracticePlusState) (evs : List Event) :
    ∃ w, run (Game.sessionStart true prev) evs = some w ∧
      w.g_state.bestCheckpointIndex
        = maxIndex (setIndices (Game.sessionStart true prev) evs) ∧
      ∀ e : Event, ∃ w1, step w e = some w1 ∧
        w.g_state.bestCheckpointIndex ≤ w1.g_state.bestCheckpointIndex := by
  obtain ⟨w, hrun, hp, _, hb, _⟩ := run_practice evs (Game.sessionStart true prev) rfl
  refine ⟨w, hrun, ?_, ?_⟩
  · rw [hb]
    simp [maxIndex, Game.sessionStart, init]
  · intro e
    obtain ⟨w1, hstep, _, _, hb1, _⟩ := step_practice w e hp
    refine ⟨w1, hstep, ?_⟩
    rw [hb1]
    cases e <;> simp

/-- C9, as the code has it: in every state reached from a practice-mode session start
by any sequence of events, `currentCPIndex` is the external checkpoint count minus one,
so `-1` when the list is empty; in any mode this holds right after a checkpoint-remove,
while outside practice mode a checkpoint-set leaves the tracker state as it was. -/
theorem currentCPIndex_mirrors_count (prev : PracticePlusState) (evs : List Event) :
    (∃ w, run (Game.sessionStart true prev) evs = some w ∧
      w.g_state.currentCPIndex = (w.checkpointCount : Int) - 1 ∧
      (w.checkpointCount = 0 → w.g_state.currentCPIndex = -1)) ∧
    (∀ w : Game, (Game.removeCheckpoint w).g_state.currentCPIndex
      = ((Game.removeCheckpoint w).checkpointCount : Int) - 1) ∧
    (∀ w : Game, w.m_isPracticeMode = false →
      (Game.markCheckpoint w).g_state = w.g_state) := by
  refine ⟨?_, fun w => rfl, ?_⟩
  · obtain ⟨w, hrun, _, _, _, _, _, hinv⟩ :=
      run_practice evs (Game.sessionStart true prev) rfl
    have h := hinv (by simp [Game.sessionStart, init])
    refine ⟨w, hrun, h, ?_⟩
    intro h0
    rw [h, h0]
    rfl
  · intro w hp
    simp [Game.markCheckpoint, Host.markCheckpoint, hp, markCheckpoint]

/-- C9, counterexample: a session started outside practice mode, one checkpoint set:
the external list holds one checkpoint and `currentCPIndex` is still `-1`, not `0`. -/
theorem currentCPIndex_non_practice_counterexample :
    (run (Game.sessionStart false {}) [Event.checkpointSet]).map
      (fun w => (w.checkpointCount, w.g_state.currentCPIndex))
      = some (1, -1) := by
  decide

/-- C10: the pause summary shows the sum of all values of `checkpointDeaths`; after a
practice-mode session start and any sequence of events that sum is the number of
player-death events that met `currentCPIndex >= 0`, and the count of every index `k` is
the number of player-death events that met `currentCPIndex = k >= 0`; in the scenario
set, three deaths, set, one death the counts are 3 and 1, the total 4 and the best
index 1. -/
theorem totalDeaths_counts_deaths (prev : PracticePlusState) (evs : List Event) :
    (∀ g : PracticePlusState, g.isPractice = true →
      ∃ summary, customSetup g = some summary ∧
        summary.totalDeaths = (g.checkpointDeaths.map Prod.snd).sum) ∧
    (∃ w summary, run (Game.sessionStart true prev) evs = some w ∧
      customSetup w.g_state = some summary ∧
      summary.totalDeaths
        = deathsWhile (fun c => decide (0 ≤ c)) (Game.sessionStart true prev) evs ∧
      ∀ k : Int, deathsAt w.g_state k
        = deathsWhile (fun c => decide (c = k ∧ 0 ≤ c)) (Game.sessionStart true prev) evs) ∧
    (run (Game.sessionStart true prev)
        [Event.checkpointSet, Event.playerDeath, Event.playerDeath, Event.playerDeath,
         Event.checkpointSet, Event.playerDeath]).map
      (fun w => (deathsAt w.g_state 0, deathsAt w.g_state 1,
                 (customSetup w.g_state).map (fun x => x.totalDeaths),
                 w.g_state.bestCheckpointIndex))
      = some (3, 1, some 4, 1) := by
  refine ⟨?_, ?_, ?_⟩
  · intro g hg
    exact ⟨{ sessionSeconds := g.sessionSeconds, totalDeaths := totalDeaths g,
             bestCPShown := g.bestCheckpointIndex + 1 },
      by simp [customSetup, hg], totalDeaths_eq_sum g⟩
  · obtain ⟨w, hrun, _, hpr, _, ht, hk, _⟩ :=
      run_practice evs (Game.sessionStart true prev) rfl
    have hprac : w.g_state.isPractice = true := by
      rw [hpr]; simp [Game.sessionStart, init]
    refine ⟨w, { sessionSeconds := w.g_state.sessionSeconds,
                 totalDeaths := totalDeaths w.g_state,
                 bestCPShown := w.g_state.bestCheckpointIndex + 1 },
      hrun, by simp [customSetup, hprac], ?_, ?_⟩
    · show totalDeaths w.g_state = _
      rw [ht]
      simp [Game.sessionStart, init, totalDeaths]
    · intro k
      rw [hk k]
      simp [Game.sessionStart, init, deathsAt, DeathMap.find]
  · have hstart : Game.sessionStart true prev = Game.sessionStart true {} := rfl
    rw [hstart]
    decide

end PracticePlus
